import Mathlib

/-!
Verification of the genetic-algorithm engine of the tetris repository
(`src/geneticalgo/`): a shallow embedding in Lean 4 of the data model and
the operations of `evolution.py`, `crossover.py`, `mutation.py` and
`selection.py`, together with theorems settling the frozen claims about
the engine.

Modelling conventions:
* Python floats are modelled as exact rationals.
* Randomness is modelled by explicit oracle arguments: each random draw
  of the source is one argument of the embedded function.
* Fallible Python code is modelled with `Except PyError`.
* numpy in-place aliasing: `BaseModel.set_params` stores
  `params.reshape(...)`, a numpy view of the chromosome's `genes` array,
  so an in-place write through `Chromosome.inherit` is visible to the
  model, while rebinding the attribute in `Chromosome.write_genes` is
  not. The embedding keeps a separate `model_params` field, updated by
  `inherit` (the aliased write) and left alone by `write_genes`.
-/

/-- Python runtime errors that the embedded code can raise. -/
inductive PyError
  | zeroDivision
  | typeError
  deriving DecidableEq

/-- Python division: raises `ZeroDivisionError` on a zero denominator. -/
def pyDiv (a b : ℚ) : Except PyError ℚ :=
  if b = 0 then .error .zeroDivision else .ok (a / b)

/-- Python `int(q)`: truncation toward zero. -/
def pyInt (q : ℚ) : ℤ :=
  if 0 ≤ q then ⌊q⌋ else ⌈q⌉

/-- `evolution.Chromosome`: `genes` is the gene array; `model_params` is the
storage the model's layers hold (a numpy view of the array that was passed to
`set_params`); `fitness` is the cached fitness value, `0` before the first
evaluation pass. -/
structure Chromosome where
  genes : List ℚ
  model_params : List ℚ
  fitness : ℚ
  deriving DecidableEq

instance : Inhabited Chromosome := ⟨⟨[], [], 0⟩⟩

/-- `Chromosome.__init__`: stores the genes, sets `fitness = 0` and runs
`initialize_model`, i.e. `model.set_params(self.genes)`; after that call the
model's parameter storage is a view of the genes array. -/
def mkChromosome (genes : List ℚ) : Chromosome :=
  ⟨genes, genes, 0⟩

namespace Chromosome

/-- `Chromosome.gene(position)`: read one gene. -/
def gene (c : Chromosome) (position : Nat) : ℚ :=
  c.genes.getD position 0

/-- `Chromosome.inherit(gene, position)`: in-place write
`self.genes[position] = gene`; because the model's parameter storage is a
view of the same array, the write is visible there too. -/
def inherit (c : Chromosome) (g : ℚ) (position : Nat) : Chromosome :=
  ⟨c.genes.set position g, c.model_params.set position g, c.fitness⟩

/-- `Chromosome.write_genes(genes)`: rebinds `self.genes` to the new list;
the model's parameter storage still views the old array. -/
def write_genes (c : Chromosome) (genes : List ℚ) : Chromosome :=
  { c with genes := genes }

/-- `Chromosome.get_fitness()` delegates to `model.get_fitness()`, which
scores moves through `model.get_score`, i.e. from the parameter storage the
model holds. The task-specific scoring is abstracted into `fitFn`. -/
def get_fitness (fitFn : List ℚ → ℚ) (c : Chromosome) : ℚ :=
  fitFn c.model_params

end Chromosome

/-- `Population.load_population`: overwrite each chromosome's genes by index
(`self.population[i].write_genes(genes)`); nothing else is touched. -/
def load_population (population : List Chromosome)
    (existing_population : List (List ℚ)) : List Chromosome :=
  (population.zip existing_population).map fun cg => cg.1.write_genes cg.2

namespace FlipMutation

/-- The loop body of `FlipMutation.mutate`: for each index `i` of the range,
when the Bernoulli draw fires the source evaluates `chromosome.gene[i]`,
which subscripts the bound method `gene` and raises `TypeError`; otherwise
the gene is left untouched and the loop continues. -/
def flipLoop (draws : Nat → Bool) (c : Chromosome) :
    List Nat → Except PyError Chromosome
  | [] => .ok c
  | i :: rest =>
      if draws i then .error .typeError else flipLoop draws c rest

/-- `FlipMutation.mutate(chromosome)`: iterate over `range(chromosome.length)`
with one independent draw per gene. -/
def mutate (draws : Nat → Bool) (c : Chromosome) : Except PyError Chromosome :=
  flipLoop draws c (List.range c.genes.length)

end FlipMutation

namespace SwapMutation

/-- `SwapMutation.mutate(chromosome)`: one Bernoulli trial per call (`fire`
models `random() < 2*rate`); when it fires, two distinct positions are
sampled, both genes are read, and then each value is written back with
`inherit(gene1, positions[0])`, `inherit(gene2, positions[1])` — each gene
returns to the position it was read from. -/
def mutate (fire : Bool) (positions : Nat × Nat) (c : Chromosome) : Chromosome :=
  if fire then
    let gene1 := c.gene positions.1
    let gene2 := c.gene positions.2
    (c.inherit gene1 positions.1).inherit gene2 positions.2
  else c

end SwapMutation

namespace CrossoverMethod

/-- The loop of `CrossoverMethod.breed`: `for i, v in enumerate(rule)`, the
child inherits gene `i` from parent1 when `v` is true, from parent2
otherwise. -/
def inheritLoop (parent1 parent2 : Chromosome) :
    List (Nat × Bool) → Chromosome → Chromosome
  | [], child => child
  | (i, v) :: rest, child =>
      inheritLoop parent1 parent2 rest
        (child.inherit (if v then parent1.gene i else parent2.gene i) i)

/-- `CrossoverMethod.breed(parent1, parent2)`: a fresh child chromosome is
created from `np.zeros(n_genes)` and filled index by index following the
variant's inheritance rule (the value `get_rule(n_genes)` returned). -/
def breed (rule : List Bool) (parent1 parent2 : Chromosome) : Chromosome :=
  let n_genes := parent1.genes.length
  inheritLoop parent1 parent2 rule.enum (mkChromosome (List.replicate n_genes 0))

end CrossoverMethod

namespace OnePointCrossover

/-- `OnePointCrossover.get_rule`: `threshold` models `randrange(0, n_genes)`;
the rule is `[i < threshold for i in range(n_genes)]`. -/
def get_rule (threshold : Nat) (n_genes : Nat) : List Bool :=
  (List.range n_genes).map fun i => decide (i < threshold)

end OnePointCrossover

namespace KPointCrossover

/-- `KPointCrossover.get_rule`: `thresholds` models
`sample(range(n_genes), k)`; the list is sorted ascending, a sign vector
starts at all `1`, and each threshold `t` flips the sign of every entry at
index `>= t`; the rule is `[r == 1 for r in rule]`. -/
def get_rule (thresholds : List Nat) (n_genes : Nat) : List Bool :=
  let sorted := thresholds.insertionSort (· ≤ ·)
  let rule : List ℤ := sorted.foldl
    (fun rule t =>
      (List.range n_genes).map fun i =>
        if i < t then rule.getD i 0 else rule.getD i 0 * -1)
    (List.replicate n_genes 1)
  rule.map fun r => decide (r = 1)

end KPointCrossover

namespace UniformCrossover

/-- `UniformCrossover.get_rule`: `draws` models `np.random.rand(n_genes)`;
the rule is `[v > 0.5 for v in ...]`. -/
def get_rule (draws : Nat → ℚ) (n_genes : Nat) : List Bool :=
  ((List.range n_genes).map draws).map fun v => decide (v > 1/2)

end UniformCrossover

namespace SelectionMethod

/-- The `while len(parent_generation) < n` loop of
`SelectionMethod.select_parent_generation`: each iteration appends exactly
one parent pair; `select_parents` is the oracle for `_select_parents`,
indexed by the call number. -/
def selectLoop (select_parents : Nat → α) (n : Nat) (acc : List α) : List α :=
  if acc.length < n then
    selectLoop select_parents n (acc ++ [select_parents acc.length])
  else acc
termination_by n - acc.length
decreasing_by simp; omega

/-- `SelectionMethod.select_parent_generation(population, n)`. -/
def select_parent_generation (select_parents : Nat → α) (n : Nat) : List α :=
  selectLoop select_parents n []

end SelectionMethod

namespace RouletteSelection

/-- The weight list comprehension of `RouletteSelection._select_parents`:
`[max(chromosome.fitness**2/total_fitness, 0) for chromosome in population]`,
with Python division raising `ZeroDivisionError` when `total_fitness` is
zero. -/
def weightsLoop (total_fitness : ℚ) :
    List Chromosome → Except PyError (List ℚ)
  | [] => .ok []
  | c :: rest =>
      match pyDiv (c.fitness ^ 2) total_fitness with
      | .error e => .error e
      | .ok w =>
          match weightsLoop total_fitness rest with
          | .error e => .error e
          | .ok ws => .ok (max w 0 :: ws)

/-- One iteration of the `for _ in (1, 2)` loop of
`RouletteSelection._select_parents`: compute `total_fitness`, compute the
weight list (the failing step when all weights are zero), let `choice` pick
a parent (the `pick` oracle) and remove it from the working copy. -/
def draw (pick : List Chromosome → Chromosome) (population : List Chromosome) :
    Except PyError (Chromosome × List Chromosome) :=
  let total_fitness := (population.map fun c => max (c.fitness ^ 2) 0).sum
  match weightsLoop total_fitness population with
  | .error e => .error e
  | .ok _weights =>
      let parent := pick population
      .ok (parent, population.erase parent)

/-- `RouletteSelection._select_parents(population)`: two draws without
replacement from a working copy of the population. -/
def select_parents (pick : Nat → List Chromosome → Chromosome)
    (population : List Chromosome) : Except PyError (List Chromosome) :=
  match draw (pick 0) population with
  | .error e => .error e
  | .ok (p1, pop1) =>
      match draw (pick 1) pop1 with
      | .error e => .error e
      | .ok (p2, _) => .ok [p1, p2]

end RouletteSelection

/-- The state of `evolution.Population` that the generational loop reads and
writes. -/
structure PopState where
  size : Nat
  n_genes : Nat
  population : List Chromosome
  generation : Nat
  best_model : Option Chromosome
  mean_fitness : ℚ
  prev_mean_fitness : ℚ
  deriving DecidableEq

/-- The randomness and fitness-provider environment of one training run:
`fitFn` is the model's fitness computation from its parameter storage;
`pick g k` gives the member indices the selection strategy pairs at
generation `g`, call `k`; `rule g k` is the crossover rule used for child
`k`; `mutateOracle g k` is the effect of the mutation strategy on child
`k`. -/
structure Env where
  fitFn : List ℚ → ℚ
  pick : Nat → Nat → Nat × Nat
  rule : Nat → Nat → List Bool
  mutateOracle : Nat → Nat → Chromosome → Chromosome

/-- `np.mean` of a list of numbers. -/
def np_mean (l : List ℚ) : ℚ := l.sum / l.length

/-- Python `max(population, key=fitness)`: the first member with maximal
fitness (a later member replaces the current one only when strictly
greater); `none` on an empty population, where Python raises. -/
def pyMax (l : List Chromosome) : Option Chromosome :=
  match l with
  | [] => none
  | c :: rest =>
      some (rest.foldl (fun acc x => if acc.fitness < x.fitness then x else acc) c)

/-- The elite count `int(elitism * size)` of `Population._get_elites`
(converted to `Nat`; the source is only called with `elitism >= 0`). -/
def n_elites (elitism : ℚ) (size : Nat) : Nat :=
  (pyInt (elitism * size)).toNat

/-- `Population._get_elites(elitism)`: sort the members by fitness
descending (Python `sorted` is stable) and keep the top
`int(elitism * size)`. -/
def _get_elites (population : List Chromosome) (elitism : ℚ) (size : Nat) :
    List Chromosome :=
  let residents := population.insertionSort fun a b => b.fitness ≤ a.fitness
  residents.take (n_elites elitism size)

/-- `Population._stopping_condition(threshold)`: false before generation 10,
then true when the relative change of the mean fitness is below the
threshold. -/
def _stopping_condition (s : PopState) (threshold : ℚ) : Bool :=
  if s.generation < 10 then false
  else |s.mean_fitness - s.prev_mean_fitness| / s.prev_mean_fitness < threshold

/-- One iteration of the `while cycle != 0` body of
`Population.train_population`: evaluate every member in order
(`pool.imap` keeps member order), shift the mean statistics, recompute
`best_model` and `mean_fitness`, take the elites, collect
`size - len(elites)` parent pairs, breed one child per pair, mutate each
child, and replace the population with `elites + children`, incrementing
`generation`. -/
def generationStep (env : Env) (elitism : ℚ) (s : PopState) : PopState :=
  let population := s.population.map fun c =>
    { c with fitness := env.fitFn c.model_params }
  let prev_mean_fitness := s.mean_fitness
  let best_model := pyMax population
  let mean_fitness := np_mean (population.map (·.fitness))
  let elites := _get_elites population elitism s.size
  let select_size := s.size - elites.length
  let parents := SelectionMethod.select_parent_generation
    (fun k =>
      let ij := env.pick s.generation k
      (population.getD ij.1 default, population.getD ij.2 default))
    select_size
  let children := parents.enum.map fun kp =>
    CrossoverMethod.breed (env.rule s.generation kp.1) kp.2.1 kp.2.2
  let mutated := children.enum.map fun kc =>
    env.mutateOracle s.generation kc.1 kc.2
  { s with
    population := elites ++ mutated
    generation := s.generation + 1
    best_model := best_model
    mean_fitness := mean_fitness
    prev_mean_fitness := prev_mean_fitness }

/-- The `while cycle != 0` loop of `Population.train_population`: run one
generation, decrement `cycle`, and break when `cycle < 0` and the stopping
condition holds. `fuel` bounds the number of iterations the model can
unfold; `none` means the loop was still running when the fuel ran out. -/
def train_loop (env : Env) (elitism threshold : ℚ) :
    Nat → Int → PopState → Option PopState
  | 0, _, _ => none
  | fuel + 1, cycle, s =>
      if cycle = 0 then some s
      else
        let s' := generationStep env elitism s
        let cycle' := cycle - 1
        if cycle' < 0 ∧ _stopping_condition s' threshold then some s'
        else train_loop env elitism threshold fuel cycle' s'

/-- The document `train_population` writes when `save` is set:
`{i: chromosome.genes.tolist()}` over the population held after the loop,
i.e. the gene vector of each member of the final (post-replacement)
population, by index. -/
def save_document (s : PopState) : List (List ℚ) :=
  s.population.map (·.genes)

/-- `Population.initialize_population`: `size` chromosomes, each built from
`n_genes` draws of `random_function` (oracle indexed by member and
position). -/
def initialize_population (random_function : Nat → Nat → ℚ)
    (size n_genes : Nat) : List Chromosome :=
  (List.range size).map fun s =>
    mkChromosome ((List.range n_genes).map (random_function s))

/-- `Population.__init__`: generation 0, no best model yet, both mean
statistics at 1, and a freshly initialized population. -/
def init_state (random_function : Nat → Nat → ℚ) (size n_genes : Nat) :
    PopState :=
  { size := size
    n_genes := n_genes
    population := initialize_population random_function size n_genes
    generation := 0
    best_model := none
    mean_fitness := 1
    prev_mean_fitness := 1 }

/-- The generation counter of a finished run (0 when the fuel ran out). -/
def finalGeneration : Option PopState → Nat
  | none => 0
  | some s => s.generation

/-- The chromosome `train_population` returns (`self.best_model`). -/
def bestOf : Option PopState → Option Chromosome
  | none => none
  | some s => s.best_model

/-- The gene vector of the returned best chromosome, when there is one. -/
def bestGenesOf : Option PopState → Option (List ℚ)
  | none => none
  | some s =>
      match s.best_model with
      | none => none
      | some c => some c.genes

/-- The saved document of a finished run (empty when the fuel ran out). -/
def docOf : Option PopState → List (List ℚ)
  | none => []
  | some s => save_document s

deriving instance DecidableEq for Except

/-- The fitness trace driving the convergence scenario: large relative
changes up to generation 9, then mean 100 at generation 10 and mean 100.5
from generation 11 on (relative change `0.005`). -/
def meanTrace (g : Nat) : ℚ :=
  if g < 10 then 2 ^ g else if g = 10 then 100 else 201 / 2

/-- A deterministic environment for a population of one chromosome with one
gene: the fitness is the gene itself, and the mutation oracle rewrites the
child's gene (and, through the numpy view, the model storage) to the next
value of `meanTrace`, so the mean fitness of generation `g` is
`meanTrace g`. -/
def convergenceEnv : Env :=
  { fitFn := fun l => l.headD 0
    pick := fun _ _ => (0, 0)
    rule := fun _ _ => [true]
    mutateOracle := fun g _ c =>
      { c with genes := [meanTrace (g + 1)], model_params := [meanTrace (g + 1)] } }

/-- The initial population state of the convergence scenario. -/
def convergenceInit : PopState := init_state (fun _ _ => meanTrace 0) 1 1

/-- A deterministic environment for the save scenario: one chromosome with
one gene, fitness is the gene itself, and mutation rewrites every child's
gene to `7`. -/
def saveEnv : Env :=
  { fitFn := fun l => l.headD 0
    pick := fun _ _ => (0, 0)
    rule := fun _ _ => [true]
    mutateOracle := fun _ _ c => { c with genes := [7], model_params := [7] } }

/-- The initial population state of the save scenario: a single chromosome
with gene vector `[5]`. -/
def saveInit : PopState := init_state (fun _ _ => 5) 1 1

theorem getD_set_self {α} (l : List α) (i : Nat) (a d : α) (h : i < l.length) :
    (l.set i a).getD i d = a := by
  rw [List.getD_eq_getElem?_getD, List.getElem?_set]
  simp [h]

theorem getD_set_ne {α} (l : List α) (i j : Nat) (a d : α) (h : i ≠ j) :
    (l.set i a).getD j d = l.getD j d := by
  rw [List.getD_eq_getElem?_getD, List.getElem?_set, if_neg h,
    ← List.getD_eq_getElem?_getD]

theorem set_self_getD {α} (l : List α) (n : Nat) (d : α) :
    l.set n (l[n]?.getD d) = l := by
  induction l generalizing n with
  | nil => simp
  | cons a t ih =>
    cases n with
    | zero => simp
    | succ m => simpa using ih m

namespace CrossoverMethod

theorem inheritLoop_genes_length (p1 p2 : Chromosome) (l : List (Nat × Bool)) :
    ∀ child : Chromosome,
      (inheritLoop p1 p2 l child).genes.length = child.genes.length := by
  induction l with
  | nil => intro child; rfl
  | cons iv rest ih =>
      intro child
      cases iv with
      | mk i v => simp [inheritLoop, ih, Chromosome.inherit]

theorem inheritLoop_genes_getD_lt (p1 p2 : Chromosome) (rule : List Bool) :
    ∀ (k : Nat) (child : Chromosome) (j : Nat), j < k →
      (inheritLoop p1 p2 (rule.enumFrom k) child).genes.getD j 0 =
        child.genes.getD j 0 := by
  induction rule with
  | nil => intro k child j _; rfl
  | cons v rest ih =>
      intro k child j hj
      rw [List.enumFrom_cons]
      show (inheritLoop p1 p2 (rest.enumFrom (k+1))
        (child.inherit _ k)).genes.getD j 0 = _
      rw [ih (k+1) _ j (by omega)]
      exact getD_set_ne _ k j _ _ (by omega)

theorem inheritLoop_genes_getD (p1 p2 : Chromosome) (rule : List Bool) :
    ∀ (k : Nat) (child : Chromosome) (j : Nat), k ≤ j → j - k < rule.length →
      j < child.genes.length →
      (inheritLoop p1 p2 (rule.enumFrom k) child).genes.getD j 0 =
        if rule.getD (j - k) true then p1.gene j else p2.gene j := by
  induction rule with
  | nil =>
      intro k child j _ h2 _
      exact absurd h2 (by simp)
  | cons v rest ih =>
      intro k child j h1 h2 h3
      rw [List.enumFrom_cons]
      show (inheritLoop p1 p2 (rest.enumFrom (k+1))
        (child.inherit _ k)).genes.getD j 0 = _
      by_cases hjk : j = k
      · subst hjk
        rw [inheritLoop_genes_getD_lt p1 p2 rest (j+1) _ j (by omega)]
        show ((child.genes.set j _).getD j 0) = _
        rw [getD_set_self _ j _ _ h3]
        simp
      · rw [ih (k+1) _ j (by omega) (by simp at h2 ⊢; omega)
          (by simpa [Chromosome.inherit] using h3)]
        have hd : j - k = (j - (k+1)) + 1 := by omega
        rw [hd, List.getD_cons_succ]

theorem breed_genes_length (rule : List Bool) (p1 p2 : Chromosome) :
    (breed rule p1 p2).genes.length = p1.genes.length := by
  unfold breed
  rw [inheritLoop_genes_length]
  simp [mkChromosome]

theorem breed_genes_getD (rule : List Bool) (p1 p2 : Chromosome) (j : Nat)
    (hr : rule.length = p1.genes.length) (hj : j < p1.genes.length) :
    (breed rule p1 p2).genes.getD j 0 =
      if rule.getD j true then p1.gene j else p2.gene j := by
  unfold breed
  rw [show rule.enum = rule.enumFrom 0 from rfl]
  rw [inheritLoop_genes_getD p1 p2 rule 0 _ j (Nat.zero_le j) (by omega)
    (by simp [mkChromosome, hj])]
  simp

end CrossoverMethod

theorem one_point_rule_length (t n : Nat) :
    (OnePointCrossover.get_rule t n).length = n := by
  simp [OnePointCrossover.get_rule]

theorem uniform_rule_length (draws : Nat → ℚ) (n : Nat) :
    (UniformCrossover.get_rule draws n).length = n := by
  simp [UniformCrossover.get_rule]

theorem k_point_rule_length (ts : List Nat) (n : Nat) :
    (KPointCrossover.get_rule ts n).length = n := by
  unfold KPointCrossover.get_rule
  rw [List.length_map]
  generalize ts.insertionSort (· ≤ ·) = sorted
  induction sorted using List.reverseRecOn with
  | nil => simp
  | append_singleton l t ih => rw [List.foldl_append]; simp

namespace SelectionMethod

theorem selectLoop_length (f : Nat → α) (n : Nat) :
    ∀ (k : Nat) (acc : List α), n - acc.length ≤ k →
      (selectLoop f n acc).length = max n acc.length := by
  intro k
  induction k with
  | zero =>
      intro acc h
      rw [selectLoop, if_neg (by omega)]
      omega
  | succ m ih =>
      intro acc h
      rw [selectLoop]
      by_cases hlt : acc.length < n
      · rw [if_pos hlt, ih]
        · simp; omega
        · simp; omega
      · rw [if_neg hlt]; omega

theorem select_parent_generation_length (f : Nat → α) (n : Nat) :
    (select_parent_generation f n).length = n := by
  unfold select_parent_generation
  rw [selectLoop_length f n n [] (by simp)]
  simp

end SelectionMethod

theorem n_elites_le (elitism : ℚ) (size : Nat) (h0 : 0 ≤ elitism)
    (h1 : elitism ≤ 1) : n_elites elitism size ≤ size := by
  unfold n_elites pyInt
  rw [if_pos (mul_nonneg h0 (by positivity))]
  rw [Int.toNat_le]
  calc ⌊elitism * size⌋ ≤ ⌊(size : ℚ)⌋ :=
        Int.floor_le_floor (by nlinarith [Nat.cast_nonneg (α := ℚ) size])
    _ = size := Int.floor_natCast size

theorem generationStep_population_length (env : Env) (elitism : ℚ)
    (s : PopState) (h0 : 0 ≤ elitism) (h1 : elitism ≤ 1)
    (hp : s.population.length = s.size) :
    (generationStep env elitism s).population.length = s.size ∧
    (generationStep env elitism s).size = s.size ∧
    (generationStep env elitism s).population.length =
      n_elites elitism s.size + (s.size - n_elites elitism s.size) := by
  have hne := n_elites_le elitism s.size h0 h1
  unfold generationStep
  simp only [List.length_append, List.length_map, List.enum_length,
    SelectionMethod.select_parent_generation_length, _get_elites,
    List.length_take, List.length_insertionSort, hp]
  refine ⟨by omega, by trivial, by omega⟩

theorem train_loop_population_length (env : Env) (elitism threshold : ℚ)
    (h0 : 0 ≤ elitism) (h1 : elitism ≤ 1) :
    ∀ (fuel : Nat) (cycle : Int) (s s' : PopState),
      s.population.length = s.size →
      train_loop env elitism threshold fuel cycle s = some s' →
      s'.population.length = s'.size := by
  intro fuel
  induction fuel with
  | zero => intro cycle s s' _ h; exact absurd h (by simp [train_loop])
  | succ m ih =>
      intro cycle s s' hp h
      rw [train_loop] at h
      by_cases hc : cycle = 0
      · rw [if_pos hc] at h
        cases h
        exact hp
      · rw [if_neg hc] at h
        have hstep := generationStep_population_length env elitism s h0 h1 hp
        by_cases hb : cycle - 1 < 0 ∧
            _stopping_condition (generationStep env elitism s) threshold
        · rw [if_pos hb] at h
          cases h
          rw [hstep.1, hstep.2.1]
        · rw [if_neg hb] at h
          exact ih (cycle - 1) _ s' (by rw [hstep.1, hstep.2.1]) h

theorem convergence_step (g : Nat) (v f mean prev : ℚ) (b : Option Chromosome) :
    generationStep convergenceEnv 0
        (PopState.mk 1 1 [Chromosome.mk [v] [v] f] g b mean prev) =
      PopState.mk 1 1 [Chromosome.mk [meanTrace (g+1)] [meanTrace (g+1)] 0] (g+1)
        (some (Chromosome.mk [v] [v] v)) v mean := by
  simp [generationStep, convergenceEnv, np_mean, pyMax, _get_elites, n_elites,
    pyInt, SelectionMethod.select_parent_generation, SelectionMethod.selectLoop,
    CrossoverMethod.breed, CrossoverMethod.inheritLoop,
    Chromosome.inherit, Chromosome.gene, mkChromosome,
    List.insertionSort, List.orderedInsert, List.getD]

theorem convergenceInit_eq :
    convergenceInit = PopState.mk 1 1 [Chromosome.mk [1] [1] 0] 0 none 1 1 := by
  norm_num [convergenceInit, init_state, initialize_population, mkChromosome,
    meanTrace, List.range, List.range.loop]

set_option maxHeartbeats 1600000 in
theorem convergence_run_unbounded :
    train_loop convergenceEnv 0 (1/100) 20 (-1) convergenceInit =
      some (PopState.mk 1 1 [Chromosome.mk [meanTrace 12] [meanTrace 12] 0] 12
        (some (Chromosome.mk [201/2] [201/2] (201/2))) (201/2) 100) := by
  rw [convergenceInit_eq]
  norm_num [train_loop, convergence_step, _stopping_condition, meanTrace,
    abs_of_pos, abs_of_nonneg]

set_option maxHeartbeats 1600000 in
theorem convergence_run_budget :
    train_loop convergenceEnv 0 (1/100) 20 15 convergenceInit =
      some (PopState.mk 1 1 [Chromosome.mk [meanTrace 15] [meanTrace 15] 0] 15
        (some (Chromosome.mk [201/2] [201/2] (201/2))) (201/2) (201/2)) := by
  rw [convergenceInit_eq]
  norm_num [train_loop, convergence_step, _stopping_condition, meanTrace,
    abs_of_pos, abs_of_nonneg]

theorem save_step (g : Nat) (v f mean prev : ℚ) (b : Option Chromosome) :
    generationStep saveEnv 0
        (PopState.mk 1 1 [Chromosome.mk [v] [v] f] g b mean prev) =
      PopState.mk 1 1 [Chromosome.mk [7] [7] 0] (g+1)
        (some (Chromosome.mk [v] [v] v)) v mean := by
  simp [generationStep, saveEnv, np_mean, pyMax, _get_elites, n_elites,
    pyInt, SelectionMethod.select_parent_generation, SelectionMethod.selectLoop,
    CrossoverMethod.breed, CrossoverMethod.inheritLoop,
    Chromosome.inherit, Chromosome.gene, mkChromosome,
    List.insertionSort, List.orderedInsert, List.getD]

theorem saveInit_eq :
    saveInit = PopState.mk 1 1 [Chromosome.mk [5] [5] 0] 0 none 1 1 := by
  norm_num [saveInit, init_state, initialize_population, mkChromosome,
    List.range, List.range.loop]

theorem save_run :
    train_loop saveEnv 0 0 5 1 saveInit =
      some (PopState.mk 1 1 [Chromosome.mk [7] [7] 0] 1
        (some (Chromosome.mk [5] [5] 5)) 5 1) := by
  rw [saveInit_eq]
  norm_num [train_loop, save_step, _stopping_condition]

/-- Claim C1, counterexample: with a finite cycle budget of 15 and a fitness
trace whose relative change is 0.005 at the generation-12 check (prev mean
100, mean 100.5, threshold 0.01), the loop does NOT terminate at generation
12 — it runs until the budget is exhausted at generation 15, because the
break is guarded by `cycle < 0`, which a finite budget never reaches. -/
theorem convergence_stop_ignored_with_finite_budget :
    finalGeneration (train_loop convergenceEnv 0 (1/100) 20 15 convergenceInit)
      = 15 ∧ (15 : Nat) ≠ 12 := by
  rw [convergence_run_budget]
  exact ⟨rfl, by decide⟩

/-- Claim C1, amended: `_stopping_condition` is true at generation 12 and
false at generation 8 for prev mean 100, mean 100.5, threshold 0.01; an
unbounded budget (cycle = -1) stops the loop at generation 12 on that trace,
but the identical trace with a finite budget of 15 runs to generation 15 —
the convergence stop applies only when the remaining budget is negative,
i.e. only when the budget was unbounded. -/
theorem convergence_stop_only_when_budget_negative :
    _stopping_condition (PopState.mk 1 1 [] 12 none (201/2) 100) (1/100)
      = true ∧
    _stopping_condition (PopState.mk 1 1 [] 8 none (201/2) 100) (1/100)
      = false ∧
    finalGeneration (train_loop convergenceEnv 0 (1/100) 20 (-1) convergenceInit)
      = 12 ∧
    finalGeneration (train_loop convergenceEnv 0 (1/100) 20 15 convergenceInit)
      = 15 := by
  refine ⟨?_, ?_, ?_, ?_⟩
  · norm_num [_stopping_condition, abs_of_pos]
  · norm_num [_stopping_condition]
  · rw [convergence_run_unbounded]; rfl
  · rw [convergence_run_budget]; rfl

/-- Claim C2: with `0 ≤ elitism ≤ 1`, the elite count is
`(floor(elitism * size)).toNat`; every generation step of the loop replaces
the population with exactly `size` chromosomes — `n_elites` elites plus
`size - n_elites` children, one child per collected parent pair — and the
`len(members) = size` invariant is preserved along any completed run of
`train_loop`. -/
theorem replacement_preserves_population_size (env : Env)
    (elitism threshold : ℚ) (h0 : 0 ≤ elitism) (h1 : elitism ≤ 1) :
    (∀ size : Nat, n_elites elitism size = (⌊elitism * size⌋).toNat) ∧
    (∀ s : PopState, s.population.length = s.size →
      (generationStep env elitism s).population.length = s.size ∧
      (generationStep env elitism s).population.length =
        n_elites elitism s.size + (s.size - n_elites elitism s.size) ∧
      n_elites elitism s.size + (s.size - n_elites elitism s.size) = s.size) ∧
    (∀ (fuel : Nat) (cycle : Int) (s s' : PopState),
      s.population.length = s.size →
      train_loop env elitism threshold fuel cycle s = some s' →
      s'.population.length = s'.size) := by
  refine ⟨?_, ?_, train_loop_population_length env elitism threshold h0 h1⟩
  · intro size
    unfold n_elites pyInt
    rw [if_pos (mul_nonneg h0 (by positivity))]
  · intro s hp
    have h := generationStep_population_length env elitism s h0 h1 hp
    have hne := n_elites_le elitism s.size h0 h1
    exact ⟨h.1, h.2.2, by omega⟩

/-- Claim C2, witness: the invariant applied at a concrete environment and
state. -/
theorem replacement_preserves_population_size_witness :
    (0 : ℚ) ≤ 0 ∧ (0 : ℚ) ≤ 1 ∧
    (generationStep convergenceEnv 0 convergenceInit).population.length =
      convergenceInit.size :=
  ⟨le_refl 0, by norm_num,
    ((replacement_preserves_population_size convergenceEnv 0 (1/100)
      (le_refl 0) (by norm_num)).2.1 convergenceInit
      (by rw [convergenceInit_eq]; rfl)).1⟩

/-- Claim C3 (code bug): `SwapMutation.mutate` reads both sampled genes and
then writes each value back to the position it came from, so the genes are
unchanged whether or not the Bernoulli trial fires — on `[10, 20]` with the
trial firing at positions (0, 1) the result is `[10, 20]`, not the exchange
`[20, 10]` the spec describes. -/
theorem swap_mutation_never_swaps :
    (∀ (c : Chromosome) (fire : Bool) (positions : Nat × Nat),
      (SwapMutation.mutate fire positions c).genes = c.genes) ∧
    (SwapMutation.mutate true (0, 1) (mkChromosome [10, 20])).genes
      = [10, 20] ∧
    ([10, 20] : List ℚ) ≠ [20, 10] := by
  refine ⟨?_, by decide, by decide⟩
  intro c fire positions
  unfold SwapMutation.mutate
  split
  · simp [Chromosome.inherit, Chromosome.gene]
    rw [set_self_getD, set_self_getD]
  · rfl

/-- Claim C4, counterexample: with cut points 1 and 3, parent1 genes
`[1,2,3,4,5]` and parent2 genes `[9,9,9,9,9]`, the child the code produces
is not the spec's expected vector `[9,2,3,9,9]`. -/
theorem k_point_child_ne_spec_vector :
    (CrossoverMethod.breed (KPointCrossover.get_rule [1, 3] 5)
      (mkChromosome [1, 2, 3, 4, 5]) (mkChromosome [9, 9, 9, 9, 9])).genes ≠
      [9, 2, 3, 9, 9] := by decide

/-- Claim C4, amended: the inheritance flag starts true (inherit from
parent1) before the first cut and toggles at each sorted cut point, giving
rule `[true,false,false,true,true]` for cuts 1 and 3 over 5 genes, so the
child is `[1,9,9,4,5]` — segments p1[0], p2[1..2], p1[3..4]. -/
theorem k_point_child_at_cuts_one_three :
    KPointCrossover.get_rule [1, 3] 5 = [true, false, false, true, true] ∧
    (CrossoverMethod.breed (KPointCrossover.get_rule [1, 3] 5)
      (mkChromosome [1, 2, 3, 4, 5]) (mkChromosome [9, 9, 9, 9, 9])).genes =
      [1, 9, 9, 4, 5] := by decide

/-- Claim C5: for equal-length parents and a rule produced by any of the
three crossover variants, `breed` returns a child gene vector of length `n`
in which every index holds the corresponding gene of one of the two
parents — no index is left unset. -/
theorem crossover_child_fully_populated (n t : Nat) (ts : List Nat)
    (draws : Nat → ℚ) (rule : List Bool) (p1 p2 : Chromosome)
    (h1 : p1.genes.length = n) (h2 : p2.genes.length = n)
    (hr : rule = OnePointCrossover.get_rule t n ∨
          rule = KPointCrossover.get_rule ts n ∨
          rule = UniformCrossover.get_rule draws n) :
    (CrossoverMethod.breed rule p1 p2).genes.length = n ∧
    ∀ j, j < n →
      (CrossoverMethod.breed rule p1 p2).genes.getD j 0 =
          p1.genes.getD j 0 ∨
      (CrossoverMethod.breed rule p1 p2).genes.getD j 0 =
          p2.genes.getD j 0 := by
  have hlen : rule.length = n := by
    rcases hr with h | h | h
    · rw [h, one_point_rule_length]
    · rw [h, k_point_rule_length]
    · rw [h, uniform_rule_length]
  constructor
  · rw [CrossoverMethod.breed_genes_length, h1]
  · intro j hj
    rw [CrossoverMethod.breed_genes_getD rule p1 p2 j (by rw [hlen, h1])
      (by omega)]
    by_cases hv : rule.getD j true = true
    · left; rw [if_pos hv]; rfl
    · right; rw [if_neg hv]; rfl

/-- Claim C5, witness: one-point crossover at threshold 1 over three genes. -/
theorem crossover_child_fully_populated_witness :
    (mkChromosome [1, 2, 3]).genes.length = 3 ∧
    (CrossoverMethod.breed (OnePointCrossover.get_rule 1 3)
      (mkChromosome [1, 2, 3]) (mkChromosome [4, 5, 6])).genes.length = 3 ∧
    ((CrossoverMethod.breed (OnePointCrossover.get_rule 1 3)
        (mkChromosome [1, 2, 3]) (mkChromosome [4, 5, 6])).genes.getD 1 0 =
          (mkChromosome [1, 2, 3]).genes.getD 1 0 ∨
      (CrossoverMethod.breed (OnePointCrossover.get_rule 1 3)
        (mkChromosome [1, 2, 3]) (mkChromosome [4, 5, 6])).genes.getD 1 0 =
          (mkChromosome [4, 5, 6]).genes.getD 1 0) := by
  have h := crossover_child_fully_populated 3 1 [] (fun _ => 0)
    (OnePointCrossover.get_rule 1 3) (mkChromosome [1, 2, 3])
    (mkChromosome [4, 5, 6]) (by decide) (by decide) (Or.inl rfl)
  exact ⟨by decide, h.1, h.2 1 (by decide)⟩

/-- Claim C6, counterexample: a cycle budget of zero skips the loop and
returns the state unchanged — `best_model` is still `None`, so no initial
best chromosome is returned. -/
theorem zero_budget_returns_none :
    train_loop convergenceEnv 0 (1/100) 1 0 convergenceInit
      = some convergenceInit ∧
    bestOf (train_loop convergenceEnv 0 (1/100) 1 0 convergenceInit) = none ∧
    convergenceInit.generation = 0 :=
  ⟨rfl, rfl, rfl⟩

/-- Claim C6, amended: with a cycle budget of zero the `while cycle != 0`
loop is skipped entirely: the state (generation, population, statistics and
`best_model`) is returned unchanged; for a fresh population `best_model` is
`None`, not an initial best chromosome. -/
theorem zero_budget_skips_loop (env : Env) (elitism threshold : ℚ)
    (s : PopState) (fuel : Nat) (h : 0 < fuel) :
    train_loop env elitism threshold fuel 0 s = some s := by
  cases fuel with
  | zero => omega
  | succ m => rw [train_loop, if_pos rfl]

/-- Claim C6, witness: the zero-budget run at the concrete convergence
scenario. -/
theorem zero_budget_skips_loop_witness :
    0 < 5 ∧
    train_loop convergenceEnv 0 (1/100) 5 0 convergenceInit
      = some convergenceInit :=
  ⟨by decide,
    zero_budget_skips_loop convergenceEnv 0 (1/100) convergenceInit 5
      (by decide)⟩

/-- Claim C7, counterexample: with every fitness zero (a never-evaluated
population), Roulette selection crashes with the unguarded division
`fitness**2 / total_fitness` — the outcome is exactly the
`ZeroDivisionError` the claim says is avoided, not a dedicated
distinguishable failure. -/
theorem roulette_zero_weights_hits_divide_by_zero :
    RouletteSelection.select_parents (fun _ l => l.headD default)
      [mkChromosome [1]] = .error .zeroDivision := by
  simp [RouletteSelection.select_parents, RouletteSelection.draw,
    RouletteSelection.weightsLoop, pyDiv, mkChromosome]

/-- Claim C7, amended: whenever every candidate's fitness is zero, the
weight computation of `RouletteSelection._select_parents` divides by a zero
`total_fitness` and the call fails with `ZeroDivisionError` (an unguarded
divide-by-zero), for every pick oracle. -/
theorem roulette_zero_weights_zero_division
    (pick : Nat → List Chromosome → Chromosome)
    (population : List Chromosome) (hne : population ≠ [])
    (hz : ∀ c ∈ population, c.fitness = 0) :
    RouletteSelection.select_parents pick population
      = .error .zeroDivision := by
  cases population with
  | nil => exact absurd rfl hne
  | cons c rest =>
    have hc : max (c.fitness ^ 2) 0 = 0 := by
      rw [hz c (by simp)]
      norm_num
    have hrest : (rest.map fun x => max (x.fitness ^ 2) 0).sum = 0 := by
      apply List.sum_eq_zero
      intro x hx
      simp only [List.mem_map] at hx
      obtain ⟨y, hy, hxy⟩ := hx
      rw [← hxy, hz y (by simp [hy])]
      norm_num
    simp [RouletteSelection.select_parents, RouletteSelection.draw,
      RouletteSelection.weightsLoop, pyDiv, hc, hrest]

/-- Claim C7, witness: the all-zero-fitness failure at a concrete
two-member population. -/
theorem roulette_zero_weights_zero_division_witness :
    ([mkChromosome [1], mkChromosome [2]] : List Chromosome) ≠ [] ∧
    RouletteSelection.select_parents (fun _ l => l.headD default)
      [mkChromosome [1], mkChromosome [2]] = .error .zeroDivision :=
  ⟨by decide,
    roulette_zero_weights_zero_division _ _ (by decide) (by decide)⟩

/-- Claim C8 (code bug): `FlipMutation.mutate` evaluates
`chromosome.gene[i]`, subscripting the bound method `gene`, so the call
raises `TypeError` as soon as any per-gene trial fires; it only returns the
chromosome unchanged when no trial fires — it never negates a gene. -/
theorem flip_mutation_raises_type_error :
    FlipMutation.mutate (fun _ => true) (mkChromosome [1, 2])
      = .error .typeError ∧
    FlipMutation.mutate (fun _ => false) (mkChromosome [1, 2])
      = .ok (mkChromosome [1, 2]) := by decide

/-- Claim C9 (code bug): `write_genes` rebinds the `genes` attribute but
never re-runs `set_params`, so the model still holds the construction-time
parameter storage: after loading `[5, 6]` over a chromosome built with
`[1, 2]`, the next fitness read (here with the provider summing the
parameters) computes 3 from the old vector, not 11 from the loaded one. -/
theorem load_population_keeps_stale_model_params :
    load_population [mkChromosome [1, 2]] [[5, 6]]
      = [Chromosome.mk [5, 6] [1, 2] 0] ∧
    Chromosome.get_fitness List.sum (Chromosome.mk [5, 6] [1, 2] 0) = 3 ∧
    List.sum ([5, 6] : List ℚ) = 11 ∧
    Chromosome.get_fitness List.sum (Chromosome.mk [5, 6] [1, 2] 0) ≠
      List.sum ([5, 6] : List ℚ) := by
  refine ⟨by decide, ?_, ?_, ?_⟩ <;> norm_num [Chromosome.get_fitness]

/-- Claim C10: the saved document holds the gene vectors of the final,
post-replacement (never evaluated) population: in a one-generation run
whose single child is mutated to gene `[7]`, the document is `[[7]]` while
the returned best chromosome — a member of the last evaluated population —
has genes `[5]`, which appear nowhere in the document. -/
theorem saved_document_is_post_replacement_population :
    train_loop saveEnv 0 0 5 1 saveInit =
      some (PopState.mk 1 1 [Chromosome.mk [7] [7] 0] 1
        (some (Chromosome.mk [5] [5] 5)) 5 1) ∧
    docOf (train_loop saveEnv 0 0 5 1 saveInit) = [[7]] ∧
    bestGenesOf (train_loop saveEnv 0 0 5 1 saveInit) = some [5] ∧
    [5] ∉ docOf (train_loop saveEnv 0 0 5 1 saveInit) :=
  ⟨save_run, by rw [save_run]; decide, by rw [save_run]; decide,
    by rw [save_run]; decide⟩
